import Mathlib

set_option autoImplicit false

namespace NapcatQCE

/-! Shallow embedding of the napcat-qce-python launcher, HTTP client and
websocket subsystems.  Decoded text is modelled as lists of characters;
Python dictionaries keyed by strings are modelled as association lists;
wall-clock time is modelled by rational numbers where only the explicit
sleeps of a loop advance the clock. -/

/-- Python `str` values handled by the launcher's line classifier are
modelled as lists of characters. -/
abbrev Chars := List Char

/-- The ASCII whitespace characters recognised by Python's `str.strip()` and
by the regular-expression class matched in the launcher
(space, tab, newline, carriage return, vertical tab, form feed). -/
def isSpaceChar (c : Char) : Bool :=
  c = ' ' || c = '\t' || c = '\n' || c = '\r' || c = '\x0b' || c = '\x0c'

/-- Embeds Python `line.strip()`: removes whitespace from both ends. -/
def strip (cs : Chars) : Chars :=
  ((cs.dropWhile isSpaceChar).reverse.dropWhile isSpaceChar).reverse

/-- Embeds Python `data.split(sep)` for a one-character separator: the
maximal pieces between occurrences of `sep`, keeping empty pieces, and
always returning at least one (possibly empty) piece. -/
def splitOnChar (sep : Char) : Chars → List Chars
  | [] => [[]]
  | c :: rest =>
    match splitOnChar sep rest with
    | [] => [[]]
    | l :: ls => if c = sep then [] :: l :: ls else (c :: l) :: ls

/-- Joins pieces back with the separator; inverse of `splitOnChar`. -/
def joinWithChar (sep : Char) : List Chars → Chars
  | [] => []
  | [l] => l
  | l :: ls => l ++ sep :: joinWithChar sep ls

/-- One read of the named-pipe reader (`_read_named_pipe`, launcher.py
lines 307-315): the buffered remainder of the previous read is prefixed to
the freshly decoded chunk, the result is split on newlines, the last piece
becomes the new buffered remainder and every earlier piece is classified as
a complete line.  Returns the new buffer and the classified lines. -/
def pipe_chunk_step (pending chunk : Chars) : Chars × List Chars :=
  let lines := splitOnChar '\n' (pending ++ chunk)
  (lines.getLastD [], lines.dropLast)

/-- Iterates `pipe_chunk_step` over a whole sequence of reads, collecting
every line that was handed to the classifier, in order. -/
def pipe_chunks : List Chars → Chars → Chars × List Chars
  | [], pending => (pending, [])
  | chunk :: rest, pending =>
    let step := pipe_chunk_step pending chunk
    let next := pipe_chunks rest step.1
    (next.1, step.2 ++ next.2)

/-- Task status enumeration (types.py, `TaskStatus`). -/
inductive TaskStatus where
  | pending
  | running
  | paused
  | completed
  | failed
  | cancelled
deriving DecidableEq

/-- Snapshot of an export task as consumed by the polling synchroniser. -/
structure ExportTask where
  taskId : String
  status : TaskStatus
  progress : ℕ
  errorText : Option String
deriving DecidableEq

/-- Statuses on which `wait_for_completion` keeps polling
(everything except COMPLETED, FAILED and CANCELLED). -/
def TaskStatus.nonTerminal (s : TaskStatus) : Prop :=
  s ≠ TaskStatus.completed ∧ s ≠ TaskStatus.failed ∧ s ≠ TaskStatus.cancelled

/-- How a `wait_for_completion` run ended: returning the completed snapshot,
raising a task-failure or cancellation `APIError`, raising `TimeoutError`,
or exhausting the artificial recursion fuel (never reached with enough
fuel). -/
inductive WfcOutcome where
  | completed (t : ExportTask)
  | failed (t : ExportTask)
  | cancelled (t : ExportTask)
  | timedOut
  | outOfFuel
deriving DecidableEq

/-- Result of a `wait_for_completion` run: the outcome together with the
snapshots passed to the `on_progress` callback, in invocation order.  The
callback is invoked once per fetched snapshot, so the number of fetches is
the length of `progressCalls`. -/
structure WfcResult where
  outcome : WfcOutcome
  progressCalls : List ExportTask
deriving DecidableEq

/-- The polling loop of `TasksAPI.wait_for_completion` (client.py lines
465-490).  `fetch i` is the snapshot returned by the i-th
`self.get(task_id)` call; `elapsed` models `time.time() - start_time` in
the timing model where exactly the `time.sleep(poll_interval)` at the end
of an iteration advances the clock; `fuel` bounds the recursion and in
every theorem below it is large enough for `outOfFuel` never to be
reached. -/
def wait_for_completion_loop (fetch : ℕ → ExportTask) (timeout poll : ℚ) :
    ℕ → ℚ → ℕ → List ExportTask → WfcResult
  | 0, _, _, acc => ⟨WfcOutcome.outOfFuel, acc.reverse⟩
  | fuel + 1, elapsed, i, acc =>
    let task := fetch i
    let acc2 := task :: acc
    if task.status = TaskStatus.completed then ⟨WfcOutcome.completed task, acc2.reverse⟩
    else if task.status = TaskStatus.failed then ⟨WfcOutcome.failed task, acc2.reverse⟩
    else if task.status = TaskStatus.cancelled then ⟨WfcOutcome.cancelled task, acc2.reverse⟩
    else if timeout < elapsed then ⟨WfcOutcome.timedOut, acc2.reverse⟩
    else wait_for_completion_loop fetch timeout poll fuel (elapsed + poll) (i + 1) acc2

/-- Entry point of the polling synchroniser: zero elapsed time, no
snapshots fetched yet. -/
def wait_for_completion (fetch : ℕ → ExportTask) (timeout poll : ℚ) (fuel : ℕ) : WfcResult :=
  wait_for_completion_loop fetch timeout poll fuel 0 0 []

/-- A task snapshot that is permanently RUNNING. -/
def runningTask : ExportTask := ⟨"task-1", TaskStatus.running, 50, none⟩

/-- A fetch stream whose every snapshot is `runningTask`. -/
def fetchRunning : ℕ → ExportTask := fun _ => runningTask

/-- A task snapshot that is already COMPLETED. -/
def doneTask : ExportTask := ⟨"task-2", TaskStatus.completed, 100, none⟩

/-- A fetch stream whose first (and every) snapshot is `doneTask`. -/
def fetchDone : ℕ → ExportTask := fun _ => doneTask

/-- The snapshot handed to the last `on_progress` invocation is exactly the
snapshot whose status decided the terminal branch of the loop. -/
def lastAligned (r : WfcResult) : Prop :=
  (∀ t, r.outcome = WfcOutcome.completed t →
    r.progressCalls.getLast? = some t ∧ t.status = TaskStatus.completed) ∧
  (∀ t, r.outcome = WfcOutcome.failed t →
    r.progressCalls.getLast? = some t ∧ t.status = TaskStatus.failed) ∧
  (∀ t, r.outcome = WfcOutcome.cancelled t →
    r.progressCalls.getLast? = some t ∧ t.status = TaskStatus.cancelled)

/-- Literal part of the redirection regex of launcher.py line 214. -/
def pipeMarker : Chars := "已重定向到命名管道:".toList

/-- Chinese token marker of launcher.py line 222. -/
def tokenMarkerCn : Chars := "访问令牌".toList

/-- English token marker of launcher.py line 222. -/
def tokenMarkerEn : Chars := "Access Token".toList

/-- Service-started marker of launcher.py line 232. -/
def startedMarker : Chars := "QQ聊天记录导出工具已启动".toList

/-- English error indicator of launcher.py line 238 (matched on the
lower-cased line). -/
def errorMarkerEn : Chars := "error".toList

/-- Chinese error indicator of launcher.py line 238. -/
def errorMarkerCn : Chars := "错误".toList

/-- Does `pat` occur at the very start of `cs`? -/
def matchesAt : Chars → Chars → Bool
  | [], _ => true
  | _ :: _, [] => false
  | p :: ps, c :: cs => p = c && matchesAt ps cs

/-- Embeds Python's `pat in line` substring test. -/
def containsSeg (pat : Chars) : Chars → Bool
  | [] => matchesAt pat []
  | c :: rest => matchesAt pat (c :: rest) || containsSeg pat rest

/-- The capture group `(\\\\.\\pipe\\[^\s]+)` of the redirection regex:
two backslashes, any character other than a newline, one backslash, the
letters `pipe`, one backslash, then a maximal non-empty run of non-space
characters. -/
def matchPipeGroup : Chars → Option Chars
  | '\\' :: '\\' :: c :: '\\' :: 'p' :: 'i' :: 'p' :: 'e' :: '\\' :: rest =>
    if c = '\n' then none
    else
      let run := rest.takeWhile (fun ch => !isSpaceChar ch)
      if run.isEmpty then none
      else some ('\\' :: '\\' :: c :: '\\' :: 'p' :: 'i' :: 'p' :: 'e' :: '\\' :: run)
  | _ => none

/-- Tries the whole redirection pattern anchored at the current position:
the literal marker, then any amount of whitespace, then the capture
group. -/
def tryPipeAt (cs : Chars) : Option Chars :=
  if matchesAt pipeMarker cs then
    matchPipeGroup ((cs.drop pipeMarker.length).dropWhile isSpaceChar)
  else none

/-- Embeds `re.search` for the redirection pattern of launcher.py line
214: the leftmost position at which the whole pattern matches wins. -/
def searchPipeRedirect : Chars → Option Chars
  | [] => none
  | c :: rest =>
    match tryPipeAt (c :: rest) with
    | some g => some g
    | none => searchPipeRedirect rest

/-- The mutable fields of `NapCatQCELauncher`, together with counters for
the reader threads it spawns and traces of the callback invocations it
performs.  A callback trace records the argument of every invocation that
occurs when the corresponding callback is registered. -/
structure LauncherState where
  running : Bool
  ready : Bool
  token : Option Chars
  pipeName : Option Chars
  pipeThreadSpawns : ℕ
  outputThreadSpawns : ℕ
  procHandle : Bool
  procAlive : Bool
  readyCalls : List (Option Chars)
  errorCalls : List Chars
  outputCalls : List Chars
deriving DecidableEq

/-- A freshly constructed launcher: nothing running, no token, no pipe,
no reader threads spawned, no callbacks fired. -/
def initLauncherState : LauncherState :=
  ⟨false, false, none, none, 0, 0, false, false, [], [], []⟩

/-- `NapCatQCELauncher._process_line` (launcher.py lines 207-244): strips
the line and drops it when empty; spawns a named-pipe reader thread
whenever the redirection regex matches (the source has no guard against
repeated spawning); on a token marker with at least one colon, stores the
stripped trailing colon-delimited segment as the token, flips readiness
and fires the ready callback; on the service-started marker flips
readiness and fires the ready callback with the currently known token; on
an error indicator fires the error callback; and finally forwards the
line to the output callback. -/
def process_line (s : LauncherState) (rawLine : Chars) : LauncherState :=
  let line := strip rawLine
  if line.isEmpty then s
  else
    let s1 := match searchPipeRedirect line with
      | some name =>
        { s with pipeName := some name, pipeThreadSpawns := s.pipeThreadSpawns + 1 }
      | none => s
    let s2 :=
      if containsSeg tokenMarkerCn line || containsSeg tokenMarkerEn line then
        let parts := splitOnChar ':' line
        if 2 ≤ parts.length then
          let tok := strip (parts.getLastD [])
          { s1 with
            token := some tok,
            ready := true,
            readyCalls := s1.readyCalls ++ [some tok] }
        else s1
      else s1
    let s3 :=
      if containsSeg startedMarker line then
        { s2 with ready := true, readyCalls := s2.readyCalls ++ [s2.token] }
      else s2
    let s4 :=
      if containsSeg errorMarkerEn (line.map Char.toLower) ||
          containsSeg errorMarkerCn line then
        { s3 with errorCalls := s3.errorCalls ++ [line] }
      else s3
    { s4 with outputCalls := s4.outputCalls ++ [line] }

/-- Feeds a sequence of decoded lines through the shared classifier. -/
def process_lines (s : LauncherState) (lines : List Chars) : LauncherState :=
  lines.foldl process_line s

/-- A redirection announcement line in the format of the spec scenario. -/
def pipeAnnounceLine : Chars := "日志已重定向到命名管道: \\\\.\\pipe\\NapCatQCE".toList

/-- Number of iterations of the half-second polling loop of
`wait_for_ready` (launcher.py lines 396-413) for which
`time.time() - start_time < timeout` still holds, in the timing model
where each `time.sleep(0.5)` advances the clock by half a second. -/
def poll_fuel (timeout : ℚ) : ℕ := (⌈2 * timeout⌉).toNat

/-- The polling loop of `wait_for_ready`: returns the result together with
the number of loop iterations (flag checks) performed.  The `ready` and
`running` flags are those of the launcher at the time of the call; in the
scenarios considered here no reader thread is left alive to change them
during the wait. -/
def wait_for_ready_go (ready running : Bool) : ℕ → Bool × ℕ
  | 0 => (false, 0)
  | fuel + 1 =>
    if ready then (true, 1)
    else if !running then (false, 1)
    else
      let r := wait_for_ready_go ready running fuel
      (r.1, r.2 + 1)

/-- `NapCatQCELauncher.wait_for_ready` (launcher.py lines 396-413). -/
def wait_for_ready (s : LauncherState) (timeout : ℚ) : Bool × ℕ :=
  wait_for_ready_go s.ready s.running (poll_fuel timeout)

/-- What happens to the launcher's state when the supervised OS process
exits on its own: `poll()` stops returning `None`, and the stdout reader
thread `_read_output` (launcher.py lines 246-254) reaches end of stream
and ends without writing any launcher field — in particular `_running`
and `_ready` are untouched. -/
def process_exit (s : LauncherState) : LauncherState := { s with procAlive := false }

/-- A launcher whose process was started and whose readiness flag has not
been set yet. -/
def runningNotReadyState : LauncherState :=
  { initLauncherState with
    running := true,
    procHandle := true,
    procAlive := true,
    outputThreadSpawns := 1 }

/-- Static configuration of a launcher instance. -/
structure LauncherConfig where
  useUserMode : Bool
  autoLoginUin : Option Chars
deriving DecidableEq

/-- The filesystem and OS facts `start` depends on: which launch scripts
exist and whether `subprocess.Popen` succeeds. -/
structure StartEnv where
  userBatExists : Bool
  win10BatExists : Bool
  mainBatExists : Bool
  spawnOk : Bool
deriving DecidableEq

/-- Result of a `start` call: a boolean outcome with the new launcher
state and the number of processes spawned by this call, or a raised
`LauncherError`. -/
inductive StartResult where
  | ok (result : Bool) (s : LauncherState) (spawned : ℕ)
  | launcherError (msg : String)
deriving DecidableEq

/-- `NapCatQCELauncher.start` (launcher.py lines 325-394): returns `True`
immediately when the running flag is already set; otherwise selects a
launch script (user-mode script with a win10 fallback, or the standard
one), raises `LauncherError` when the script is missing or the spawn
fails, and on success marks the launcher running, spawns the stdout
reader thread and, when asked to, blocks on `wait_for_ready`. -/
def launcher_start (cfg : LauncherConfig) (s : LauncherState) (waitReady : Bool)
    (timeout : ℚ) (env : StartEnv) : StartResult :=
  if s.running then StartResult.ok true s 0
  else
    let batExists :=
      if cfg.useUserMode then env.userBatExists || env.win10BatExists
      else env.mainBatExists
    if !batExists then StartResult.launcherError "启动脚本不存在"
    else if !env.spawnOk then StartResult.launcherError "启动失败"
    else
      let s1 := { s with
        procHandle := true,
        procAlive := true,
        running := true,
        outputThreadSpawns := s.outputThreadSpawns + 1 }
      if waitReady then StartResult.ok (wait_for_ready s1 timeout).1 s1 1
      else StartResult.ok true s1 1

/-- Python `dict` assignment on a string-keyed association list: replaces
an existing entry in place, otherwise appends. -/
def alSet {α : Type} (k : String) (v : α) : List (String × α) → List (String × α)
  | [] => [(k, v)]
  | (k2, v2) :: rest => if k2 = k then (k, v) :: rest else (k2, v2) :: alSet k v rest

/-- Python `dict.get`. -/
def alGet {α : Type} (k : String) : List (String × α) → Option α
  | [] => none
  | (k2, v2) :: rest => if k2 = k then some v2 else alGet k rest

/-- Python `del d[k]`. -/
def alErase {α : Type} (k : String) : List (String × α) → List (String × α)
  | [] => []
  | (k2, v2) :: rest => if k2 = k then alErase k rest else (k2, v2) :: alErase k rest

/-- The task-status dictionaries written by the monitor's handlers
(websocket.py lines 337-373); dictionary keys absent from a given variant
are `none`. -/
structure TaskInfo where
  status : String
  progress : Option ℕ
  message : Option String
  messageCount : Option ℕ
  fileName : Option String
  filePath : Option String
  downloadUrl : Option String
  errorText : Option String
deriving DecidableEq

/-- The dictionary `{"status": "unknown"}` returned when a released wait
finds no stored snapshot. -/
def unknownTaskInfo : TaskInfo := ⟨"unknown", none, none, none, none, none, none, none⟩

/-- Payload of an `export_complete` frame as read by `_handle_complete`. -/
structure CompleteData where
  taskId : Option String
  messageCount : ℕ
  fileName : Option String
  filePath : Option String
  downloadUrl : Option String
deriving DecidableEq

/-- A completion or error event consumed by the monitor's handlers. -/
inductive ArrivalEvent where
  | complete (d : CompleteData)
  | error (taskId : Option String) (message : String)
deriving DecidableEq

/-- The task id an arrival event refers to. -/
def ArrivalEvent.eventTaskId : ArrivalEvent → Option String
  | ArrivalEvent.complete d => d.taskId
  | ArrivalEvent.error tid _ => tid

/-- Shared state of `ExportProgressMonitor`: the per-task snapshot map
`_tasks` and the per-task completion-signal map `_task_events` (the Bool
records whether the `threading.Event` has been set). -/
structure MonitorState where
  tasks : List (String × TaskInfo)
  taskEvents : List (String × Bool)
deriving DecidableEq

/-- `ExportProgressMonitor._handle_complete` (websocket.py lines 348-362):
the `if task_id:` truthiness check skips frames whose task id is missing
or the empty string; otherwise the completed snapshot is stored and the
completion signal set when one is registered for that id. -/
def handle_complete (st : MonitorState) (d : CompleteData) : MonitorState :=
  match d.taskId with
  | none => st
  | some tid =>
    if tid = "" then st
    else
      MonitorState.mk
        (alSet tid ⟨"completed", some 100, some "导出完成", some d.messageCount,
          d.fileName, d.filePath, d.downloadUrl, none⟩ st.tasks)
        (if (alGet tid st.taskEvents).isSome then alSet tid true st.taskEvents
         else st.taskEvents)

/-- `ExportProgressMonitor._handle_error` (websocket.py lines 364-373),
with the same `if task_id:` truthiness check as `_handle_complete`. -/
def handle_error (st : MonitorState) (taskId : Option String) (message : String) :
    MonitorState :=
  match taskId with
  | none => st
  | some tid =>
    if tid = "" then st
    else
      MonitorState.mk
        (alSet tid ⟨"failed", none, none, none, none, none, none, some message⟩ st.tasks)
        (if (alGet tid st.taskEvents).isSome then alSet tid true st.taskEvents
         else st.taskEvents)

/-- Dispatches an arrival event to the matching monitor handler. -/
def handle_event (st : MonitorState) : ArrivalEvent → MonitorState
  | ArrivalEvent.complete d => handle_complete st d
  | ArrivalEvent.error tid msg => handle_error st tid msg

/-- `ExportProgressMonitor.wait_for_task` (websocket.py lines 388-430):
registers a fresh unset completion signal for the task id, then blocks on
it up to the timeout.  `arrival` is the completion or error event, if any,
delivered by the receive-loop thread during the wait; the signal is
released exactly when handling such an event sets it.  When `event.wait`
returns true the signal entry is deleted and the final snapshot returned;
otherwise a `TimeoutError` is raised. -/
def wait_for_task (st : MonitorState) (tid : String) (arrival : Option ArrivalEvent) :
    Except String TaskInfo × MonitorState :=
  let st1 := MonitorState.mk st.tasks (alSet tid false st.taskEvents)
  let st2 := match arrival with
    | none => st1
    | some ev => handle_event st1 ev
  if (alGet tid st2.taskEvents).getD false then
    (Except.ok ((alGet tid st2.tasks).getD unknownTaskInfo),
      MonitorState.mk st2.tasks (alErase tid st2.taskEvents))
  else
    (Except.error "TimeoutError", st2)

/-- Python truthiness of an optional string: `None` and the empty string
are falsy. -/
def pyTruthyStr : Option String → Bool
  | none => false
  | some s => !s.isEmpty

/-- A constructed `NapCatQCE` client. -/
structure Client where
  token : String
  host : String
  port : ℕ
deriving DecidableEq

/-- Outcome of `create_client_with_auto_token`. -/
inductive CreateClientResult where
  | client (c : Client)
  | authenticationError
deriving DecidableEq

/-- `auto_discover_token` (auto_token.py lines 95-128): tries the
`NAPCAT_QCE_TOKEN` environment variable first, then — when allowed — the
`accessToken` field of the local `security.json`; returns `None` when
neither yields a truthy value.  `envToken` and `configToken` are the
results of the two lookups. -/
def auto_discover_token (envToken configToken : Option String)
    (tryLocalConfig : Bool) : Option String :=
  if pyTruthyStr envToken then envToken
  else if tryLocalConfig && pyTruthyStr configToken then configToken
  else none

/-- `create_client_with_auto_token` (auto_token.py lines 131-170): a
truthy explicit `token` argument short-circuits; otherwise, when
`autoDiscover` is set, discovery consults the environment and then the
config file; when no source yields a truthy token, `AuthenticationError`
is raised and no client is built. -/
def create_client_with_auto_token (host : String) (port : ℕ) (token : Option String)
    (autoDiscover : Bool) (envToken configToken : Option String) : CreateClientResult :=
  let finalToken :=
    if !pyTruthyStr token && autoDiscover then
      auto_discover_token envToken configToken true
    else token
  if !pyTruthyStr finalToken then CreateClientResult.authenticationError
  else CreateClientResult.client ⟨finalToken.getD "", host, port⟩

/-- A JSON value, for the response bodies of the HTTP API. -/
inductive JVal where
  | null
  | bool (b : Bool)
  | num (n : Int)
  | str (s : String)
  | arr (elems : List JVal)
  | obj (fields : List (String × JVal))

/-- Python `dict.get` on a JSON object; `none` on missing keys and on
non-objects. -/
def jget : JVal → String → Option JVal
  | JVal.obj fields, k => alGet k fields
  | _, _ => none

/-- Python `dict.get` with a default. -/
def jgetD (v : JVal) (k : String) (d : JVal) : JVal := (jget v k).getD d

/-- Python truthiness of a JSON value. -/
def jTruthy : JVal → Bool
  | JVal.null => false
  | JVal.bool b => b
  | JVal.num n => n != 0
  | JVal.str s => !s.isEmpty
  | JVal.arr l => !l.isEmpty
  | JVal.obj l => !l.isEmpty

/-- String content of an optional JSON value, with a default for missing
keys and non-strings. -/
def jstrD : Option JVal → String → String
  | some (JVal.str s), _ => s
  | _, d => d

/-- The typed errors `NapCatQCE._request` can raise while handling an HTTP
response. -/
inductive ApiExn where
  | authenticationError (message : String)
  | validationError (message : String)
  | taskNotFound (taskId : String)
  | apiError (message : String) (code : String) (status : ℕ)

/-- Response handling of `NapCatQCE._request` (client.py lines 867-904):
status 401 and 403 are mapped to `AuthenticationError` before the body is
parsed.  Only then is the body parse outcome (`parsed`, where `none`
models undecodable JSON) consulted: parse failure on an error status is a
generic `APIError` and on a success status an empty result; on a parsed
body a falsy `success` flag dispatches on the declared error type, and
otherwise the `data` envelope is unwrapped. -/
def handle_response (status : ℕ) (parsed : Option JVal) : Except ApiExn JVal :=
  if status = 401 then
    Except.error (ApiExn.authenticationError "认证失败，请检查访问令牌")
  else if status = 403 then
    Except.error (ApiExn.authenticationError "访问被拒绝，令牌无效或已过期")
  else
    match parsed with
    | none =>
      if 400 ≤ status then
        Except.error (ApiExn.apiError ("服务器返回错误: " ++ toString status)
          "API_ERROR" status)
      else Except.ok (JVal.obj [])
    | some data =>
      if !jTruthy (jgetD data "success" (JVal.bool true)) then
        let err := jgetD data "error" (JVal.obj [])
        let errorType := jstrD (jget err "type") "UNKNOWN_ERROR"
        let errorMessage := jstrD (jget err "message") "未知错误"
        let errorCode := jstrD (jget (jgetD err "context" (JVal.obj [])) "code") errorType
        if errorType = "AUTH_ERROR" then
          Except.error (ApiExn.authenticationError errorMessage)
        else if errorType = "VALIDATION_ERROR" then
          Except.error (ApiExn.validationError errorMessage)
        else if errorCode = "TASK_NOT_FOUND" then
          Except.error (ApiExn.taskNotFound
            (jstrD (jget (jgetD err "context" (JVal.obj [])) "taskId") "unknown"))
        else Except.error (ApiExn.apiError errorMessage errorCode status)
      else Except.ok (jgetD data "data" data)

/-- The handler loop of `WebSocketClient._emit` (websocket.py lines
145-152): each handler is invoked on the event data inside a
`try`/`except`; a raising handler is logged and the loop continues with
the next handler either way.  Returns the outcome of every invocation, in
registration order. -/
def run_handlers {D E : Type} (data : D) : List (D → Except E Unit) → List (Except E Unit)
  | [] => []
  | h :: rest =>
    match h data with
    | Except.ok u => Except.ok u :: run_handlers data rest
    | Except.error e => Except.error e :: run_handlers data rest

/-- `WebSocketClient._emit` (websocket.py lines 145-152): looks up the
handlers registered for the event type (defaulting to none) and runs them
all on the event data. -/
def emit {D E : Type} (handlerMap : List (String × List (D → Except E Unit)))
    (eventType : String) (data : D) : List (Except E Unit) :=
  run_handlers data ((alGet eventType handlerMap).getD [])

/-- A handler that always succeeds (concrete witness material). -/
def okHandler : ℕ → Except ℕ Unit := fun _ => Except.ok ()

/-- A handler that always raises error 7 (concrete witness material). -/
def badHandler : ℕ → Except ℕ Unit := fun _ => Except.error 7

/-- A registry whose export-progress handler list has a raising handler in
the middle. -/
def demoHandlerMap : List (String × List (ℕ → Except ℕ Unit)) :=
  [("export_progress", [okHandler, badHandler, okHandler])]

end NapcatQCE

namespace NapcatQCE

theorem splitOnChar_ne_nil (sep : Char) (cs : Chars) : splitOnChar sep cs ≠ [] := by
  cases cs with
  | nil => simp [splitOnChar]
  | cons c rest =>
    simp only [splitOnChar]
    cases splitOnChar sep rest with
    | nil => simp
    | cons l ls =>
      by_cases h : c = sep <;> simp [h]

theorem joinWithChar_splitOnChar (sep : Char) (cs : Chars) :
    joinWithChar sep (splitOnChar sep cs) = cs := by
  induction cs with
  | nil => rfl
  | cons c rest ih =>
    simp only [splitOnChar]
    rcases hs : splitOnChar sep rest with _ | ⟨l, ls⟩
    · exact absurd hs (splitOnChar_ne_nil sep rest)
    · rw [hs] at ih
      by_cases h : c = sep
      · subst h
        simpa [joinWithChar] using ih
      · simp only [if_neg h]
        cases ls with
        | nil => simpa [joinWithChar] using ih
        | cons l2 ls2 => simpa [joinWithChar] using ih

theorem joinWithChar_cons_cons (sep : Char) (a b : Chars) (l : List Chars) :
    joinWithChar sep (a :: b :: l) = a ++ sep :: joinWithChar sep (b :: l) := rfl

theorem joinWithChar_append (sep : Char) (xs ys : List Chars)
    (hx : xs ≠ []) (hy : ys ≠ []) :
    joinWithChar sep (xs ++ ys) = joinWithChar sep xs ++ sep :: joinWithChar sep ys := by
  induction xs with
  | nil => exact absurd rfl hx
  | cons x xs ih =>
    cases xs with
    | nil =>
      cases ys with
      | nil => exact absurd rfl hy
      | cons y ys => simp [joinWithChar]
    | cons x2 xs2 =>
      have h2 : (x2 :: xs2 : List Chars) ≠ [] := by simp
      have hrec := ih h2
      simp only [List.cons_append] at hrec ⊢
      rw [joinWithChar_cons_cons, hrec, joinWithChar_cons_cons]
      simp [List.append_assoc]

theorem dropLast_append_getLastD {α : Type} (l : List α) (d : α) (h : l ≠ []) :
    l.dropLast ++ [l.getLastD d] = l := by
  induction l with
  | nil => exact absurd rfl h
  | cons a l ih =>
    cases l with
    | nil => simp [List.getLastD]
    | cons b l2 =>
      have h2 : (b :: l2 : List α) ≠ [] := by simp
      have ih2 := ih h2
      simp only [List.getLastD_cons] at ih2
      simp only [List.dropLast_cons₂, List.cons_append, List.getLastD_cons, ih2]

theorem pipe_chunks_reconstruct (chunks : List Chars) (pending : Chars) :
    joinWithChar '\n' ((pipe_chunks chunks pending).2 ++ [(pipe_chunks chunks pending).1]) =
      pending ++ chunks.flatten := by
  induction chunks generalizing pending with
  | nil => simp [pipe_chunks, joinWithChar]
  | cons chunk rest ih =>
    simp only [pipe_chunks, pipe_chunk_step, List.flatten_cons]
    set lines := splitOnChar '\n' (pending ++ chunk) with hlines
    have hne : lines ≠ [] := splitOnChar_ne_nil '\n' (pending ++ chunk)
    have hsplit : lines.dropLast ++ [lines.getLastD []] = lines :=
      dropLast_append_getLastD lines [] hne
    have hjoin : joinWithChar '\n' lines = pending ++ chunk := by
      rw [hlines, joinWithChar_splitOnChar]
    have ihr := ih (lines.getLastD [])
    rcases hd : lines.dropLast with _ | ⟨l, ls⟩
    · -- the split produced a single piece: everything stays buffered
      have hone : lines = [lines.getLastD []] := by
        conv_lhs => rw [← hsplit]
        rw [hd]; simp
      have hpc : lines.getLastD [] = pending ++ chunk := by
        have h2 := hjoin
        rw [hone] at h2
        simpa [joinWithChar] using h2
      simp only [List.nil_append]
      rw [hpc, ih (pending ++ chunk)]
      simp [List.append_assoc]
    · -- at least one complete line was classified
      have hdd : lines.dropLast ≠ [] := by rw [hd]; simp
      have htail : ((pipe_chunks rest (lines.getLastD [])).2 ++
          [(pipe_chunks rest (lines.getLastD [])).1]) ≠ [] := by simp
      rw [← hd, List.append_assoc,
        joinWithChar_append '\n' lines.dropLast _ hdd htail, ihr]
      have hrej : joinWithChar '\n' lines.dropLast ++ '\n' :: lines.getLastD [] =
          pending ++ chunk := by
        rw [← hjoin]
        conv_rhs => rw [← hsplit]
        rw [joinWithChar_append '\n' lines.dropLast [lines.getLastD []] hdd (by simp)]
        simp [joinWithChar]
      rw [← List.append_assoc, ← hrej]
      simp [List.append_assoc]

/-- C4: feeding the named-pipe chunk logic the two reads `"ab"` then
`"cd\nef"` starting from an empty buffer classifies exactly the single
complete line `"abcd"` and buffers `"ef"`; and for every sequence of chunks
and every starting buffer, the classified lines joined back with newlines,
followed by the final buffer, reconstruct the entire input exactly — so no
line is classified twice and none is dropped at a chunk boundary. -/
theorem pipe_chunk_classification :
    pipe_chunks ["ab".toList, "cd\nef".toList] [] = ("ef".toList, ["abcd".toList]) ∧
    ∀ (chunks : List Chars) (pending : Chars),
      joinWithChar '\n' ((pipe_chunks chunks pending).2 ++ [(pipe_chunks chunks pending).1]) =
        pending ++ chunks.flatten := by
  constructor
  · decide
  · exact pipe_chunks_reconstruct

theorem wait_for_completion_loop_timedOut (fetch : ℕ → ExportTask) (timeout poll : ℚ)
    (hT : 0 < timeout) (hp : 0 < poll)
    (hnt : ∀ n, (fetch n).status.nonTerminal) :
    ∀ (r j i : ℕ) (acc : List ExportTask) (fuel : ℕ),
      j + r = (⌊timeout / poll⌋).toNat + 1 → r + 1 ≤ fuel →
      (wait_for_completion_loop fetch timeout poll fuel ((j : ℚ) * poll) i acc).outcome =
          WfcOutcome.timedOut ∧
      (wait_for_completion_loop fetch timeout poll fuel ((j : ℚ) * poll) i
          acc).progressCalls.length = acc.length + r + 1 := by
  have h0 : (0 : ℚ) ≤ timeout / poll := le_of_lt (div_pos hT hp)
  have hmz : ((⌊timeout / poll⌋.toNat : ℤ)) = ⌊timeout / poll⌋ :=
    Int.toNat_of_nonneg (Int.floor_nonneg.mpr h0)
  have hq : ((⌊timeout / poll⌋.toNat : ℕ) : ℚ) = ((⌊timeout / poll⌋ : ℤ) : ℚ) := by
    exact_mod_cast hmz
  intro r
  induction r with
  | zero =>
    intro j i acc fuel hj hfuel
    obtain ⟨f, rfl⟩ : ∃ f, fuel = f + 1 := ⟨fuel - 1, by omega⟩
    obtain ⟨h1, h2, h3⟩ := hnt i
    have hjm : j = ⌊timeout / poll⌋.toNat + 1 := by omega
    have hjq : ((⌊timeout / poll⌋ : ℤ) : ℚ) + 1 = (j : ℚ) := by
      have hj2 : (j : ℚ) = ((⌊timeout / poll⌋.toNat : ℕ) : ℚ) + 1 := by
        rw [hjm]
        norm_cast
      rw [hj2, hq]
    have hlt : timeout < (j : ℚ) * poll := by
      rw [← div_lt_iff₀ hp, ← hjq]
      exact Int.lt_floor_add_one _
    simp only [wait_for_completion_loop]
    rw [if_neg h1, if_neg h2, if_neg h3, if_pos hlt]
    exact ⟨rfl, by simp⟩
  | succ r ih =>
    intro j i acc fuel hj hfuel
    obtain ⟨f, rfl⟩ : ∃ f, fuel = f + 1 := ⟨fuel - 1, by omega⟩
    obtain ⟨h1, h2, h3⟩ := hnt i
    have hjm : (j : ℚ) ≤ ((⌊timeout / poll⌋.toNat : ℕ) : ℚ) := by
      have hje : j ≤ ⌊timeout / poll⌋.toNat := by omega
      exact_mod_cast hje
    have hle : ¬ (timeout < (j : ℚ) * poll) := by
      rw [not_lt, ← le_div_iff₀ hp]
      exact le_trans (le_trans hjm (le_of_eq hq)) (Int.floor_le _)
    have hcast : (j : ℚ) * poll + poll = ((j + 1 : ℕ) : ℚ) * poll := by push_cast; ring
    have hrec := ih (j + 1) (i + 1) (fetch i :: acc) f (by omega) (by omega)
    rw [← hcast] at hrec
    simp only [wait_for_completion_loop]
    rw [if_neg h1, if_neg h2, if_neg h3, if_neg hle]
    refine ⟨hrec.1, ?_⟩
    rw [hrec.2]
    simp only [List.length_cons]
    omega

/-- C2 counterexample: with `timeout = 2`, `poll_interval = 1` and a task
that stays RUNNING forever, `wait_for_completion` fetches the snapshot four
times before raising the timeout error — strictly more than the claimed
bound of `ceil(timeout / poll_interval) = 2` fetches. -/
theorem wait_for_completion_exceeds_ceil_bound :
    (wait_for_completion fetchRunning 2 1 10).outcome = WfcOutcome.timedOut ∧
    (wait_for_completion fetchRunning 2 1 10).progressCalls.length = 4 ∧
    ¬((wait_for_completion fetchRunning 2 1 10).progressCalls.length ≤
        (⌈(2 : ℚ) / 1⌉).toNat) := by
  have hnt : ∀ n, (fetchRunning n).status.nonTerminal := fun n =>
    ⟨by simp [fetchRunning, runningTask], by simp [fetchRunning, runningTask],
      by simp [fetchRunning, runningTask]⟩
  have hm : (⌊(2 : ℚ) / 1⌋).toNat = 2 := by
    have hfl : ⌊(2 : ℚ) / 1⌋ = 2 := by norm_num
    rw [hfl]
    rfl
  have hc : (⌈(2 : ℚ) / 1⌉).toNat = 2 := by
    have hcl : ⌈(2 : ℚ) / 1⌉ = 2 := by norm_num
    rw [hcl]
    rfl
  have h := wait_for_completion_loop_timedOut fetchRunning 2 1 (by norm_num) (by norm_num)
    hnt 3 0 0 [] 10 (by rw [hm]) (by omega)
  have hz : ((0 : ℕ) : ℚ) * 1 = 0 := by norm_num
  rw [hz] at h
  unfold wait_for_completion
  refine ⟨h.1, ?_, ?_⟩
  · rw [h.2]
    rfl
  · rw [h.2, hc]
    simp

/-- C2 (amended): for every `timeout > 0` and `poll_interval > 0`, if every
fetched snapshot is non-terminal then `wait_for_completion` performs exactly
`floor(timeout / poll_interval) + 2` fetches (in the timing model where only
the sleeps advance the clock — hence at most that many in reality) and
terminates by raising the timeout error, never by returning success. -/
theorem wait_for_completion_timeout_poll_count (fetch : ℕ → ExportTask)
    (timeout poll : ℚ) (fuel : ℕ) (hT : 0 < timeout) (hp : 0 < poll)
    (hnt : ∀ n, (fetch n).status.nonTerminal)
    (hfuel : (⌊timeout / poll⌋).toNat + 2 ≤ fuel) :
    (wait_for_completion fetch timeout poll fuel).outcome = WfcOutcome.timedOut ∧
    (wait_for_completion fetch timeout poll fuel).progressCalls.length =
      (⌊timeout / poll⌋).toNat + 2 := by
  have h := wait_for_completion_loop_timedOut fetch timeout poll hT hp hnt
    ((⌊timeout / poll⌋).toNat + 1) 0 0 [] fuel (by omega) (by omega)
  have hz : ((0 : ℕ) : ℚ) * poll = 0 := by push_cast; ring
  rw [hz] at h
  unfold wait_for_completion
  refine ⟨h.1, ?_⟩
  rw [h.2]
  simp only [List.length_nil]
  omega

theorem wait_for_completion_timeout_poll_count_witness :
    (wait_for_completion fetchRunning 2 1 4).outcome = WfcOutcome.timedOut ∧
    (wait_for_completion fetchRunning 2 1 4).progressCalls.length =
      (⌊(2 : ℚ) / 1⌋).toNat + 2 := by
  have hm : (⌊(2 : ℚ) / 1⌋).toNat = 2 := by
    have hfl : ⌊(2 : ℚ) / 1⌋ = 2 := by norm_num
    rw [hfl]
    rfl
  have hnt : ∀ n, (fetchRunning n).status.nonTerminal := fun n =>
    ⟨by simp [fetchRunning, runningTask], by simp [fetchRunning, runningTask],
      by simp [fetchRunning, runningTask]⟩
  exact wait_for_completion_timeout_poll_count fetchRunning 2 1 4 (by norm_num)
    (by norm_num) hnt (by rw [hm])

theorem wait_for_completion_loop_trace (fetch : ℕ → ExportTask) (timeout poll : ℚ) :
    ∀ (fuel : ℕ) (elapsed : ℚ) (i : ℕ) (acc : List ExportTask),
      ∃ k, (wait_for_completion_loop fetch timeout poll fuel elapsed i acc).progressCalls =
        acc.reverse ++ (List.range k).map (fun j => fetch (i + j)) := by
  intro fuel
  induction fuel with
  | zero =>
    intro elapsed i acc
    exact ⟨0, by simp [wait_for_completion_loop]⟩
  | succ fuel ih =>
    intro elapsed i acc
    simp only [wait_for_completion_loop]
    split_ifs with h1 h2 h3 h4
    · exact ⟨1, by simp [List.range_succ]⟩
    · exact ⟨1, by simp [List.range_succ]⟩
    · exact ⟨1, by simp [List.range_succ]⟩
    · exact ⟨1, by simp [List.range_succ]⟩
    · obtain ⟨k, hk⟩ := ih (elapsed + poll) (i + 1) (fetch i :: acc)
      refine ⟨k + 1, ?_⟩
      rw [hk]
      have hfun : (fun j => fetch (i + 1 + j)) = (fun j => fetch (i + (j + 1))) := by
        funext j
        congr 1
        omega
      rw [hfun]
      simp [List.range_succ_eq_map, List.map_map, Function.comp_def]

theorem wait_for_completion_loop_lastAligned (fetch : ℕ → ExportTask) (timeout poll : ℚ) :
    ∀ (fuel : ℕ) (elapsed : ℚ) (i : ℕ) (acc : List ExportTask),
      lastAligned (wait_for_completion_loop fetch timeout poll fuel elapsed i acc) := by
  intro fuel
  induction fuel with
  | zero =>
    intro elapsed i acc
    refine ⟨?_, ?_, ?_⟩ <;> intro t h <;> simp [wait_for_completion_loop] at h
  | succ fuel ih =>
    intro elapsed i acc
    simp only [wait_for_completion_loop]
    split_ifs with h1 h2 h3 h4
    · refine ⟨?_, ?_, ?_⟩ <;> intro t h <;> simp at h
      rw [← h]
      exact ⟨by simp [List.getLast?_concat], h1⟩
    · refine ⟨?_, ?_, ?_⟩ <;> intro t h <;> simp at h
      rw [← h]
      exact ⟨by simp [List.getLast?_concat], h2⟩
    · refine ⟨?_, ?_, ?_⟩ <;> intro t h <;> simp at h
      rw [← h]
      exact ⟨by simp [List.getLast?_concat], h3⟩
    · refine ⟨?_, ?_, ?_⟩ <;> intro t h <;> simp at h
    · exact ih (elapsed + poll) (i + 1) (fetch i :: acc)

/-- C6: the `on_progress` callback receives exactly the fetched snapshots,
in fetch order (`progressCalls` is the image of the fetch stream on an
initial segment), the last invocation carries the snapshot whose status
decided the terminal branch, and when the very first snapshot is already
COMPLETED the loop performs exactly one fetch, invokes the callback once
with that snapshot, and returns that same snapshot. -/
theorem progress_callback_alignment (fetch : ℕ → ExportTask) (timeout poll : ℚ) (fuel : ℕ) :
    (wait_for_completion fetch timeout poll fuel).progressCalls =
      (List.range (wait_for_completion fetch timeout poll fuel).progressCalls.length).map
        fetch ∧
    lastAligned (wait_for_completion fetch timeout poll fuel) ∧
    ((fetch 0).status = TaskStatus.completed → 1 ≤ fuel →
      wait_for_completion fetch timeout poll fuel =
        ⟨WfcOutcome.completed (fetch 0), [fetch 0]⟩) := by
  refine ⟨?_, ?_, ?_⟩
  · obtain ⟨k, hk⟩ := wait_for_completion_loop_trace fetch timeout poll fuel 0 0 []
    unfold wait_for_completion
    rw [hk]
    simp
  · exact wait_for_completion_loop_lastAligned fetch timeout poll fuel 0 0 []
  · intro hc hfuel
    obtain ⟨f, rfl⟩ : ∃ f, fuel = f + 1 := ⟨fuel - 1, by omega⟩
    unfold wait_for_completion
    simp only [wait_for_completion_loop]
    rw [if_pos hc]
    simp

theorem progress_callback_alignment_witness :
    wait_for_completion fetchDone 5 2 3 = ⟨WfcOutcome.completed doneTask, [doneTask]⟩ :=
  (progress_callback_alignment fetchDone 5 2 3).2.2 rfl (by omega)

/-- C1: `_process_line` spawns a named-pipe reader thread on every line
matching the redirection pattern: feeding the classifier the same
announcement line twice spawns two reader threads, not at most one.  The
second conjunct confirms that the line does match the pattern. -/
theorem pipe_reader_spawned_per_match :
    (process_lines initLauncherState [pipeAnnounceLine, pipeAnnounceLine]).pipeThreadSpawns
        = 2 ∧
    searchPipeRedirect (strip pipeAnnounceLine) ≠ none := by
  constructor
  · decide
  · decide

theorem wait_for_ready_go_stuck (fuel : ℕ) :
    wait_for_ready_go false true fuel = (false, fuel) := by
  induction fuel with
  | zero => rfl
  | succ f ih => simp [wait_for_ready_go, ih]

/-- C7 counterexample: after the supervised process exits on its own, the
launcher's running flag is still set, so with `timeout = 2` and readiness
unset, `wait_for_ready` performs all `poll_fuel 2` flag checks — it keeps
polling until the timeout elapses — before returning `false`, rather than
failing fast. -/
theorem wait_for_ready_polls_full_timeout_after_exit :
    (wait_for_ready (process_exit runningNotReadyState) 2).1 = false ∧
    (wait_for_ready (process_exit runningNotReadyState) 2).2 = poll_fuel 2 ∧
    ¬((wait_for_ready (process_exit runningNotReadyState) 2).2 < poll_fuel 2) := by
  have hrun : (process_exit runningNotReadyState).running = true := rfl
  have hrdy : (process_exit runningNotReadyState).ready = false := rfl
  unfold wait_for_ready
  rw [hrun, hrdy, wait_for_ready_go_stuck]
  exact ⟨rfl, rfl, by simp⟩

/-- C7 (amended): with readiness unset, `wait_for_ready` returns `false`
after a single flag check only when the launcher's running flag has been
cleared (which only `stop()` does); when the supervised process merely
exited on its own the flag is still set, so the loop polls out the full
timeout budget and only then returns `false`.  Either way it never
returns `true`. -/
theorem wait_for_ready_exit_polling (s : LauncherState) (timeout : ℚ)
    (hready : s.ready = false) :
    (s.running = false → 0 < timeout → wait_for_ready s timeout = (false, 1)) ∧
    (s.running = true → wait_for_ready s timeout = (false, poll_fuel timeout)) := by
  constructor
  · intro hrun ht
    unfold wait_for_ready
    rw [hready, hrun]
    have hceil : (0 : ℤ) < ⌈2 * timeout⌉ := Int.ceil_pos.mpr (by positivity)
    have hfuel : 0 < poll_fuel timeout := by
      unfold poll_fuel
      omega
    obtain ⟨f, hf⟩ : ∃ f, poll_fuel timeout = f + 1 := ⟨poll_fuel timeout - 1, by omega⟩
    rw [hf]
    rfl
  · intro hrun
    unfold wait_for_ready
    rw [hready, hrun, wait_for_ready_go_stuck]

theorem wait_for_ready_exit_polling_witness :
    wait_for_ready initLauncherState 1 = (false, 1) ∧
    wait_for_ready (process_exit runningNotReadyState) 3 = (false, poll_fuel 3) :=
  ⟨(wait_for_ready_exit_polling initLauncherState 1 rfl).1 rfl (by norm_num),
   (wait_for_ready_exit_polling (process_exit runningNotReadyState) 3 rfl).2 rfl⟩

/-- C10: calling `start` on a launcher whose running flag is already set
returns `True` immediately, spawns no second process, and leaves every
field of the launcher state (process handle, token, readiness flag,
callback traces) unchanged — for every `wait_for_ready` argument, timeout
and environment. -/
theorem start_idempotent_when_running (cfg : LauncherConfig) (s : LauncherState)
    (waitReady : Bool) (timeout : ℚ) (env : StartEnv) (h : s.running = true) :
    launcher_start cfg s waitReady timeout env = StartResult.ok true s 0 := by
  unfold launcher_start
  rw [h]
  rfl

theorem start_idempotent_when_running_witness :
    launcher_start ⟨true, none⟩ runningNotReadyState true 60 ⟨true, true, true, true⟩ =
      StartResult.ok true runningNotReadyState 0 :=
  start_idempotent_when_running ⟨true, none⟩ runningNotReadyState true 60
    ⟨true, true, true, true⟩ rfl

theorem alGet_alSet_self {α : Type} (k : String) (v : α) (l : List (String × α)) :
    alGet k (alSet k v l) = some v := by
  induction l with
  | nil => simp [alSet, alGet]
  | cons p rest ih =>
    obtain ⟨k2, v2⟩ := p
    by_cases h : k2 = k
    · simp [alSet, alGet, h]
    · simp [alSet, alGet, h, ih]

theorem alGet_alErase_self {α : Type} (k : String) (l : List (String × α)) :
    alGet k (alErase k l) = none := by
  induction l with
  | nil => simp [alErase, alGet]
  | cons p rest ih =>
    obtain ⟨k2, v2⟩ := p
    by_cases h : k2 = k
    · simp [alErase, h, ih]
    · simp [alErase, alGet, h, ih]

theorem handle_event_sets_signal (st : MonitorState) (ev : ArrivalEvent) (tid : String)
    (hev : ev.eventTaskId = some tid) (htid : tid ≠ "")
    (hreg : (alGet tid st.taskEvents).isSome = true) :
    alGet tid (handle_event st ev).taskEvents = some true := by
  cases ev with
  | complete d =>
    simp only [ArrivalEvent.eventTaskId] at hev
    simp [handle_event, handle_complete, hev, htid, hreg, alGet_alSet_self]
  | error tid2 msg =>
    simp only [ArrivalEvent.eventTaskId] at hev
    simp [handle_event, handle_error, hev, htid, hreg, alGet_alSet_self]

theorem handle_event_empty_id (st : MonitorState) (ev : ArrivalEvent)
    (hev : ev.eventTaskId = some "") : handle_event st ev = st := by
  cases ev with
  | complete d =>
    simp only [ArrivalEvent.eventTaskId] at hev
    simp [handle_event, handle_complete, hev]
  | error tid2 msg =>
    simp only [ArrivalEvent.eventTaskId] at hev
    simp [handle_event, handle_error, hev]

/-- C3 counterexample: a wait that times out raises `TimeoutError` but
leaves its completion-signal entry registered in the monitor's signal
map — the `del` only runs on the released path. -/
theorem wait_for_task_timeout_leaves_signal :
    (wait_for_task (MonitorState.mk [] []) "t1" none).1 = Except.error "TimeoutError" ∧
    alGet "t1" (wait_for_task (MonitorState.mk [] []) "t1" none).2.taskEvents =
      some false := by
  constructor
  · rfl
  · rfl

/-- C3 (amended): when a completion or error event carrying the exact,
truthy (non-empty) task id arrives during the wait, `wait_for_task`
returns a final snapshot and the completion-signal entry is removed from
the signal map; when no event arrives — or the arriving event's task id
is the empty string, which the handlers' `if task_id:` check skips — it
raises `TimeoutError` and the unset signal entry remains registered. -/
theorem wait_for_task_signal_cleanup (st : MonitorState) (tid : String) :
    (∀ ev : ArrivalEvent, ev.eventTaskId = some tid → tid ≠ "" →
      alGet tid (wait_for_task st tid (some ev)).2.taskEvents = none ∧
      ∃ info, (wait_for_task st tid (some ev)).1 = Except.ok info) ∧
    ((wait_for_task st tid none).1 = Except.error "TimeoutError" ∧
      alGet tid (wait_for_task st tid none).2.taskEvents = some false) ∧
    (∀ ev : ArrivalEvent, ev.eventTaskId = some "" →
      (wait_for_task st "" (some ev)).1 = Except.error "TimeoutError" ∧
      alGet "" (wait_for_task st "" (some ev)).2.taskEvents = some false) := by
  refine ⟨?_, ?_, ?_⟩
  · intro ev hev htid
    have hreg : (alGet tid (MonitorState.mk st.tasks
        (alSet tid false st.taskEvents)).taskEvents).isSome = true := by
      simp [alGet_alSet_self]
    have hsig := handle_event_sets_signal
      (MonitorState.mk st.tasks (alSet tid false st.taskEvents)) ev tid hev htid hreg
    constructor
    · simp only [wait_for_task]
      rw [hsig]
      simp [alGet_alErase_self]
    · simp only [wait_for_task]
      rw [hsig]
      simp
  · constructor
    · simp [wait_for_task, alGet_alSet_self]
    · simp [wait_for_task, alGet_alSet_self]
  · intro ev hev
    have hskip := handle_event_empty_id
      (MonitorState.mk st.tasks (alSet "" false st.taskEvents)) ev hev
    constructor
    · simp only [wait_for_task]
      rw [hskip]
      simp [alGet_alSet_self]
    · simp only [wait_for_task]
      rw [hskip]
      simp [alGet_alSet_self]

theorem wait_for_task_signal_cleanup_witness :
    (alGet "t9" (wait_for_task (MonitorState.mk [] []) "t9"
        (some (ArrivalEvent.complete ⟨some "t9", 12, none, none, none⟩))).2.taskEvents =
      none ∧
      ∃ info, (wait_for_task (MonitorState.mk [] []) "t9"
        (some (ArrivalEvent.complete ⟨some "t9", 12, none, none, none⟩))).1 =
          Except.ok info) ∧
    ((wait_for_task (MonitorState.mk [] []) "t9" none).1 =
        Except.error "TimeoutError" ∧
      alGet "t9" (wait_for_task (MonitorState.mk [] []) "t9" none).2.taskEvents =
        some false) ∧
    ((wait_for_task (MonitorState.mk [] []) ""
        (some (ArrivalEvent.error (some "") "boom"))).1 =
        Except.error "TimeoutError" ∧
      alGet "" (wait_for_task (MonitorState.mk [] []) ""
        (some (ArrivalEvent.error (some "") "boom"))).2.taskEvents = some false) :=
  ⟨(wait_for_task_signal_cleanup (MonitorState.mk [] []) "t9").1
      (ArrivalEvent.complete ⟨some "t9", 12, none, none, none⟩) rfl (by decide),
   (wait_for_task_signal_cleanup (MonitorState.mk [] []) "t9").2.1,
   (wait_for_task_signal_cleanup (MonitorState.mk [] []) "").2.2
      (ArrivalEvent.error (some "") "boom") rfl⟩

/-- C5: credential resolution priority.  A truthy explicit token argument
is used as-is and neither the environment nor the config lookup can
change the outcome; with no usable explicit token, a truthy environment
token wins over whatever the config file holds; and when all three
sources are falsy, construction raises `AuthenticationError` and returns
no client. -/
theorem credential_priority_order (host : String) (port : ℕ) :
    (∀ (tok : String) (autoDiscover : Bool) (env1 cfg1 env2 cfg2 : Option String),
      tok ≠ "" →
      create_client_with_auto_token host port (some tok) autoDiscover env1 cfg1 =
        CreateClientResult.client ⟨tok, host, port⟩ ∧
      create_client_with_auto_token host port (some tok) autoDiscover env1 cfg1 =
        create_client_with_auto_token host port (some tok) autoDiscover env2 cfg2) ∧
    (∀ (token : Option String) (e : String) (cfg1 cfg2 : Option String),
      pyTruthyStr token = false → e ≠ "" →
      create_client_with_auto_token host port token true (some e) cfg1 =
        CreateClientResult.client ⟨e, host, port⟩ ∧
      create_client_with_auto_token host port token true (some e) cfg1 =
        create_client_with_auto_token host port token true (some e) cfg2) ∧
    (∀ (token envToken configToken : Option String),
      pyTruthyStr token = false → pyTruthyStr envToken = false →
      pyTruthyStr configToken = false →
      create_client_with_auto_token host port token true envToken configToken =
        CreateClientResult.authenticationError) := by
  refine ⟨?_, ?_, ?_⟩
  · intro tok autoDiscover env1 cfg1 env2 cfg2 htok
    have hemp : tok.isEmpty = false := by
      cases hbool : tok.isEmpty with
      | false => rfl
      | true => exact absurd ((String.isEmpty_iff tok).mp hbool) htok
    have ht : pyTruthyStr (some tok) = true := by simp [pyTruthyStr, hemp]
    constructor <;> simp [create_client_with_auto_token, ht]
  · intro token e cfg1 cfg2 htok he
    have hemp : e.isEmpty = false := by
      cases hbool : e.isEmpty with
      | false => rfl
      | true => exact absurd ((String.isEmpty_iff e).mp hbool) he
    have ht : pyTruthyStr (some e) = true := by simp [pyTruthyStr, hemp]
    constructor <;>
      simp [create_client_with_auto_token, auto_discover_token, htok, ht]
  · intro token envToken configToken htok henv hcfg
    have hdisc : auto_discover_token envToken configToken true = none := by
      simp [auto_discover_token, henv, hcfg]
    have hnone : pyTruthyStr none = false := rfl
    simp [create_client_with_auto_token, htok, hdisc, hnone]

theorem credential_priority_order_witness :
    create_client_with_auto_token "localhost" 40653 (some "T") true (some "E")
        (some "C") = CreateClientResult.client ⟨"T", "localhost", 40653⟩ ∧
    create_client_with_auto_token "localhost" 40653 none true (some "E") (some "C") =
      CreateClientResult.client ⟨"E", "localhost", 40653⟩ ∧
    create_client_with_auto_token "localhost" 40653 none true none none =
      CreateClientResult.authenticationError :=
  ⟨((credential_priority_order "localhost" 40653).1 "T" true (some "E") (some "C")
      (some "E") (some "C") (by decide)).1,
   ((credential_priority_order "localhost" 40653).2.1 none "E" (some "C") (some "C")
      rfl (by decide)).1,
   (credential_priority_order "localhost" 40653).2.2 none none none rfl rfl rfl⟩

/-- C8: every HTTP response with status 401 or 403 raises
`AuthenticationError`, and the outcome does not depend on the response
body at all — in particular a 401 with an undecodable body raises
`AuthenticationError` and never a JSON-decode-driven `APIError`. -/
theorem http_auth_error_before_parse (status : ℕ) (parsed : Option JVal)
    (h : status = 401 ∨ status = 403) :
    (∃ msg, handle_response status parsed =
      Except.error (ApiExn.authenticationError msg)) ∧
    ∀ parsed2, handle_response status parsed = handle_response status parsed2 := by
  rcases h with h | h <;> subst h
  · exact ⟨⟨"认证失败，请检查访问令牌", rfl⟩, fun parsed2 => rfl⟩
  · exact ⟨⟨"访问被拒绝，令牌无效或已过期", rfl⟩, fun parsed2 => rfl⟩

theorem http_auth_error_before_parse_witness :
    (∃ msg, handle_response 401 none =
      Except.error (ApiExn.authenticationError msg)) ∧
    handle_response 401 none = handle_response 401 (some (JVal.str "garbled")) :=
  ⟨(http_auth_error_before_parse 401 none (Or.inl rfl)).1,
   (http_auth_error_before_parse 401 none (Or.inl rfl)).2 (some (JVal.str "garbled"))⟩

theorem run_handlers_eq_map {D E : Type} (data : D) (hs : List (D → Except E Unit)) :
    run_handlers data hs = hs.map (fun h => h data) := by
  induction hs with
  | nil => rfl
  | cons h rest ih =>
    cases hd : h data <;> simp [run_handlers, hd, ih]

/-- C9: when the handlers registered for an event type are `pre`, then a
raising handler, then `post`, dispatch still runs start to finish: every
handler in `pre` gets the data, the exception is caught in place, and
every handler in `post` is still invoked with the same event data; `emit`
itself returns normally instead of propagating the exception. -/
theorem handler_exception_isolation {D E : Type}
    (handlerMap : List (String × List (D → Except E Unit))) (eventType : String)
    (pre post : List (D → Except E Unit)) (h : D → Except E Unit) (data : D) (e : E)
    (hfind : alGet eventType handlerMap = some (pre ++ h :: post))
    (herr : h data = Except.error e) :
    emit handlerMap eventType data =
      pre.map (fun g => g data) ++ Except.error e :: post.map (fun g => g data) := by
  unfold emit
  rw [hfind]
  simp [run_handlers_eq_map, herr]

theorem handler_exception_isolation_witness :
    emit demoHandlerMap "export_progress" 5 =
      [okHandler].map (fun g => g 5) ++
        Except.error 7 :: [okHandler].map (fun g => g 5) :=
  handler_exception_isolation demoHandlerMap "export_progress" [okHandler] [okHandler]
    badHandler 5 7 rfl rfl

end NapcatQCE
